import Mathlib

/-!
Shallow embedding of the `nestjs-mongodb` repository abstraction:
`DbOperationsService` (src/db-operations.service.ts) and
`DbOperationsServiceFactory` (src/db-operations-factory.service.ts).

Documents are association lists of field name to value; JavaScript object
spread `{...d, ...m}` is modelled by `spread` (later fields win on key
collision, lookup-wise). Each service method is translated as a function
producing the call it issues to the underlying collection (a
`CollectionCall`), since the service layer is exactly "transform arguments,
delegate once". The underlying document store (an external collaborator,
spec §6) is modelled separately by the `mongo*` functions.
-/

set_option autoImplicit false

namespace Mdb

/-- Field values. `oid` models a BSON `ObjectId` wrapping its hex string;
it is distinct from the plain string `str` of the same characters, as in
the driver. `date` models a `Date` by its timestamp. -/
inductive Val where
  | str : String → Val
  | num : Int → Val
  | date : Nat → Val
  | oid : String → Val
  | bool : Bool → Val
deriving DecidableEq, Repr

/-- A document: an association list of field name to value
(JavaScript object; first occurrence of a key is its binding). -/
abbrev Doc := List (String × Val)

/-- Lookup of a key in a string-keyed association list. -/
def alookup {α : Type} : List (String × α) → String → Option α
  | [], _ => none
  | (k, v) :: rest, key => if k = key then some v else alookup rest key

/-- JavaScript object spread `{...d, ...m}`: the fields of `d` not
overridden by `m`, followed by the fields of `m`. On any key collision
`m`'s value wins. -/
def spread (d m : Doc) : Doc :=
  d.filter (fun kv => (alookup m kv.1).isNone) ++ m

/-- A MongoDB equality filter: a document of required field/value pairs
(the form every filter in this repository's code and tests takes). -/
abbrev Filter := Doc

/-- A document matches an equality filter when every filter field is
present with the given value. -/
def filterMatches (f : Filter) (d : Doc) : Bool :=
  f.all (fun kv => alookup d kv.1 == some kv.2)

/-- An update specification: the `$set` clause (`none` when the update has
no `$set` key) and the remaining operators, passed through opaquely. -/
structure UpdateSpec where
  set : Option Doc
  rest : Doc
deriving DecidableEq, Repr

/-- Session handles are opaque to the CRUD operations; they are only
attached to the delegated call. -/
abbrev SessionId := Nat

/-- The options bag of `DbOperationOptions<T>` (src/db-operations.service.ts,
lines 20-25): `createMetaData`, `updateMetaData`, `session`, `debug`.
A metadata producer is a JavaScript closure that may return a different
object on each call; it is modelled as a function of its invocation index
within the operation (invocation `0` is the first call). -/
structure DbOperationOptions where
  createMetaData : Option (Nat → Doc)
  updateMetaData : Option (Nat → Doc)
  session : Option SessionId
  debug : Option Bool

/-- The empty options bag `{}`. -/
def noOpts : DbOperationOptions := ⟨none, none, none, none⟩

/-- A call issued to the underlying collection handle, with the exact
arguments the service passes. -/
inductive CollectionCall where
  | insertOneC (doc : Doc) (session : Option SessionId)
  | insertManyC (docs : List Doc) (session : Option SessionId)
  | findC (filter : Filter) (session : Option SessionId)
  | findOneC (filter : Filter) (session : Option SessionId)
  | updateOneC (filter : Filter) (update : UpdateSpec) (session : Option SessionId)
  | updateManyC (filter : Filter) (update : UpdateSpec) (session : Option SessionId)
  | replaceOneC (filter : Filter) (replacement : Doc) (session : Option SessionId)
  | deleteOneC (filter : Filter) (session : Option SessionId)
  | deleteManyC (filter : Filter) (session : Option SessionId)
  | createIndexC (indexSpec : Doc) (options : Option Doc)
deriving DecidableEq, Repr

/-- The session argument a collection call carries (`createIndex` is called
without one in the source). -/
def CollectionCall.sessionOf : CollectionCall → Option SessionId
  | .insertOneC _ s => s
  | .insertManyC _ s => s
  | .findC _ s => s
  | .findOneC _ s => s
  | .updateOneC _ _ s => s
  | .updateManyC _ _ s => s
  | .replaceOneC _ _ s => s
  | .deleteOneC _ s => s
  | .deleteManyC _ s => s
  | .createIndexC _ _ => none

/-- Whether a collection call is a physical delete. -/
def CollectionCall.isDelete : CollectionCall → Bool
  | .deleteOneC _ _ => true
  | .deleteManyC _ _ => true
  | _ => false

/-- `insertOne`'s final document (lines 54-57):
`{...doc, ...(options.createMetaData?.() ?? {})}` — one producer
invocation (index 0) when present, the empty object otherwise. -/
def insertOneFinalDoc (doc : Doc) (opts : DbOperationOptions) : Doc :=
  spread doc ((opts.createMetaData.map (fun M => M 0)).getD [])

/-- How many times `insertOne` invokes the `createMetaData` producer:
`options.createMetaData?.()` appears once (line 56). -/
def insertOneInvocations (opts : DbOperationOptions) : Nat :=
  match opts.createMetaData with
  | none => 0
  | some _ => 1

/-- `insertOne(doc, options)` (lines 50-63): merge metadata into the
document, delegate to `collection.insertOne` with the caller's session. -/
def insertOne (doc : Doc) (opts : DbOperationOptions) : CollectionCall :=
  .insertOneC (insertOneFinalDoc doc opts) opts.session

/-- The list built by `docs.map((doc) => ({...doc, ...M()}))` when a
producer `M` is present: the map callback invokes `M` once per element,
left to right, so the element at position `i` receives invocation `i`'s
output. -/
def mergeEach (M : Nat → Doc) : Nat → List Doc → List Doc
  | _, [] => []
  | i, d :: rest => spread d (M i) :: mergeEach M (i + 1) rest

/-- `insertMany`'s final documents (lines 69-72):
`docs.map((doc) => ({...doc, ...(options.createMetaData?.() ?? {})}))`. -/
def insertManyFinalDocs (docs : List Doc) (opts : DbOperationOptions) : List Doc :=
  match opts.createMetaData with
  | none => docs
  | some M => mergeEach M 0 docs

/-- How many times `insertMany` invokes the `createMetaData` producer:
`options.createMetaData?.()` sits inside the `map` callback (line 71),
so it runs once per element of `docs`. -/
def insertManyInvocations (docs : List Doc) (opts : DbOperationOptions) : Nat :=
  match opts.createMetaData with
  | none => 0
  | some _ => docs.length

/-- `insertMany(docs, options)` (lines 65-77): one batched
`collection.insertMany` call with the merged documents. -/
def insertMany (docs : List Doc) (opts : DbOperationOptions) : CollectionCall :=
  .insertManyC (insertManyFinalDocs docs opts) opts.session

/-- `find(filter, options)` (lines 79-82): the filter is passed verbatim to
`collection.find`. -/
def find (filter : Filter) (opts : DbOperationOptions) : CollectionCall :=
  .findC filter opts.session

/-- `findOne(filter, options)` (lines 84-90): the filter is passed verbatim
to `collection.findOne`. -/
def findOne (filter : Filter) (opts : DbOperationOptions) : CollectionCall :=
  .findOneC filter opts.session

/-- `findById(id, options)` (lines 92-97): delegates to `findOne` with the
filter `{_id: new ObjectId(id)}`. -/
def findById (id : String) (opts : DbOperationOptions) : CollectionCall :=
  findOne [("_id", Val.oid id)] opts

/-- The update document an update path builds (lines 104-107, 128-131,
144-147): when `updateMetaData` yields `meta`, it is
`{...update, $set: {...update.$set, ...meta}}`; otherwise `update`
unchanged. -/
def mergedUpdate (update : UpdateSpec) (meta : Option Doc) : UpdateSpec :=
  match meta with
  | none => update
  | some m => ⟨some (spread (update.set.getD []) m), update.rest⟩

/-- How many times the update paths invoke the `updateMetaData` producer:
`options.updateMetaData?.()` appears once in each (lines 104, 128, 144). -/
def updatePathInvocations (opts : DbOperationOptions) : Nat :=
  match opts.updateMetaData with
  | none => 0
  | some _ => 1

/-- `patchOne(filter, update, options)` (lines 99-113): merge
`updateMetaData()` into the `$set` clause, delegate to
`collection.updateOne`. -/
def patchOne (filter : Filter) (update : UpdateSpec) (opts : DbOperationOptions) :
    CollectionCall :=
  .updateOneC filter
    (mergedUpdate update (opts.updateMetaData.map (fun M => M 0))) opts.session

/-- `patchById(id, update, options)` (lines 115-121): delegates to
`patchOne` with the filter `{_id: id}` — the raw string, no `ObjectId`
wrapping. -/
def patchById (id : String) (update : UpdateSpec) (opts : DbOperationOptions) :
    CollectionCall :=
  patchOne [("_id", Val.str id)] update opts

/-- `updateOne(filter, update, options)` (lines 123-137): merge
`updateMetaData()` into the `$set` clause, delegate to
`collection.updateOne`. -/
def updateOne (filter : Filter) (update : UpdateSpec) (opts : DbOperationOptions) :
    CollectionCall :=
  .updateOneC filter
    (mergedUpdate update (opts.updateMetaData.map (fun M => M 0))) opts.session

/-- `updateMany(filter, update, options)` (lines 139-153): same merge,
delegate to `collection.updateMany`. -/
def updateMany (filter : Filter) (update : UpdateSpec) (opts : DbOperationOptions) :
    CollectionCall :=
  .updateManyC filter
    (mergedUpdate update (opts.updateMetaData.map (fun M => M 0))) opts.session

/-- `replaceOne(filter, replacement, options)` (lines 155-167): when the
replacement has no fields (`!Object.keys(replacement).length`) the method
returns `null` without calling the store — modelled as `none`; otherwise
it delegates to `collection.replaceOne`. -/
def replaceOne (filter : Filter) (replacement : Doc) (opts : DbOperationOptions) :
    Option CollectionCall :=
  if replacement.length = 0 then none
  else some (.replaceOneC filter replacement opts.session)

/-- `deleteOne(filter, options)` (lines 169-174). -/
def deleteOne (filter : Filter) (opts : DbOperationOptions) : CollectionCall :=
  .deleteOneC filter opts.session

/-- `deleteMany(filter, options)` (lines 176-181). -/
def deleteMany (filter : Filter) (opts : DbOperationOptions) : CollectionCall :=
  .deleteManyC filter opts.session

/-- The update document `softDeleteOne`/`softDeleteMany` build
(lines 184-186, 192-194): `{$set: {deletedAt: new Date()}}`, with the
current time `now`. -/
def softDeleteUpdate (now : Nat) : UpdateSpec :=
  ⟨some [("deletedAt", Val.date now)], []⟩

/-- `softDeleteOne(filter, options)` (lines 183-189): delegates to
`updateOne` with `{$set: {deletedAt: new Date()}}`. -/
def softDeleteOne (now : Nat) (filter : Filter) (opts : DbOperationOptions) :
    CollectionCall :=
  updateOne filter (softDeleteUpdate now) opts

/-- `softDeleteMany(filter, options)` (lines 191-197): delegates to
`updateMany` with `{$set: {deletedAt: new Date()}}`. -/
def softDeleteMany (now : Nat) (filter : Filter) (opts : DbOperationOptions) :
    CollectionCall :=
  updateMany filter (softDeleteUpdate now) opts

/-- `createIndex(indexSpec, options)` (lines 218-224): both arguments are
passed verbatim to `collection.createIndex`; no session, metadata or
soft-delete handling. -/
def createIndex (indexSpec : Doc) (options : Option Doc) : CollectionCall :=
  .createIndexC indexSpec options

/-- The public methods of the `DbOperationsService` class
(src/db-operations.service.ts, lines 27-225), in source order; the
constructor and the private `log` helper are not part of the surface. -/
def exposedOperations : List String :=
  ["enableDebug", "insertOne", "insertMany", "find", "findOne", "findById",
   "patchOne", "patchById", "updateOne", "updateMany", "replaceOne",
   "deleteOne", "deleteMany", "softDeleteOne", "softDeleteMany",
   "startTransaction", "commitTransaction", "abortTransaction", "createIndex"]

/-! ## The underlying document store (external collaborator, spec §6) -/

/-- Modelled from the spec: the collection capability's `findOne` —
returns the first stored document matching the filter, or nothing. -/
def mongoFindOne (store : List Doc) (f : Filter) : Option Doc :=
  store.find? (fun d => filterMatches f d)

/-- The insert acknowledgment the store returns: `acknowledged` plus the
generated identifier. -/
structure InsertOneResult where
  acknowledged : Bool
  insertedId : Nat
deriving DecidableEq, Repr

/-- Modelled from the spec: the collection capability's `insertOne` —
appends the document and acknowledges with a fresh identifier. -/
def mongoInsertOne (store : List Doc) (d : Doc) : List Doc × InsertOneResult :=
  (store ++ [d], ⟨true, store.length⟩)

/-- Applying a `$set` clause to a document: the set fields win. -/
def applySet (d : Doc) (s : Doc) : Doc := spread d s

/-- Modelled from the spec: the collection capability's `updateMany` —
applies the update's `$set` clause to every matching document, in place. -/
def mongoUpdateMany (store : List Doc) (f : Filter) (u : UpdateSpec) : List Doc :=
  store.map (fun d => if filterMatches f d then applySet d (u.set.getD []) else d)

/-- Modelled from the spec: the collection capability's `updateOne` —
applies the update's `$set` clause to the first matching document. -/
def mongoUpdateOne (store : List Doc) (f : Filter) (u : UpdateSpec) : List Doc :=
  match store with
  | [] => []
  | d :: rest =>
      if filterMatches f d then applySet d (u.set.getD []) :: rest
      else d :: mongoUpdateOne rest f u

/-- The service's `insertOne` run against a store: the store receives the
merged document and the service returns the store's acknowledgment
verbatim (`return await this.collection.insertOne(...)`, line 60). -/
def runInsertOne (store : List Doc) (doc : Doc) (opts : DbOperationOptions) :
    List Doc × InsertOneResult :=
  mongoInsertOne store (insertOneFinalDoc doc opts)

/-- The service's `findOne` run against a store: the store receives the
filter exactly as given (line 89) and its result is returned verbatim. -/
def runFindOne (store : List Doc) (f : Filter) (opts : DbOperationOptions) :
    Option Doc :=
  match findOne f opts with
  | .findOneC f0 _ => mongoFindOne store f0
  | _ => none

/-! ## The connection factory (src/db-operations-factory.service.ts) -/

/-- A driver client: its cluster URI and whether its handshake has
completed. `new MongoClient(uri)` yields an unconnected client. -/
structure MongoClient where
  uri : String
  connected : Bool
deriving DecidableEq, Repr

/-- The process-wide cache `private static clients` (line 12), keyed by
cluster URI. -/
abbrev ClientCache := List (String × MongoClient)

/-- What a `create` call produces: either a service bound to a client, or
the propagated handshake rejection. -/
inductive CreateOutcome where
  | ok (serviceClient : MongoClient)
  | connectionError
deriving DecidableEq, Repr

/-- The observable result of one `DbOperationsServiceFactory.create` call:
the cache afterwards, the outcome, and whether a connection handshake was
attempted during the call. -/
structure CreateResult where
  cache : ClientCache
  outcome : CreateOutcome
  handshakeAttempted : Bool
deriving DecidableEq, Repr

/-- `DbOperationsServiceFactory.create` (lines 14-29). On a cache miss the
code first stores `new MongoClient(clusterUri)` in the cache and only then
awaits `connect()`; `env uri` says whether the handshake for `uri`
succeeds (the cluster is reachable and credentials accepted). On a cache
hit the cached client is reused with no handshake. -/
def factoryCreate (env : String → Bool) (cache : ClientCache) (uri : String) :
    CreateResult :=
  match alookup cache uri with
  | some client => ⟨cache, .ok client, false⟩
  | none =>
      if env uri then
        ⟨(uri, ⟨uri, true⟩) :: cache, .ok ⟨uri, true⟩, true⟩
      else
        ⟨(uri, ⟨uri, false⟩) :: cache, .connectionError, true⟩

/-! ## Transaction sessions (spec §4.3, §6) -/

/-- Transaction state of a session, per the spec's lifecycle
`Idle → Active → {Committed, Aborted}`. -/
inductive TxnState where
  | idle
  | active
  | committed
  | aborted
deriving DecidableEq, Repr

/-- A driver session: its transaction state and whether it has been
released by `endSession`. -/
structure ClientSession where
  txn : TxnState
  ended : Bool
deriving DecidableEq, Repr

/-- Modelled from the spec: `client.startSession(options)` yields a fresh,
idle, unreleased session (§6). -/
def startSession : ClientSession := ⟨.idle, false⟩

/-- Modelled from the spec: `session.startTransaction()` moves the session
to `Active` (§4.3). -/
def ClientSession.txnStart (s : ClientSession) : ClientSession :=
  ⟨.active, s.ended⟩

/-- Modelled from the spec: `session.commitTransaction()` moves the
session to `Committed` (§4.3). -/
def ClientSession.txnCommit (s : ClientSession) : ClientSession :=
  ⟨.committed, s.ended⟩

/-- Modelled from the spec: `session.abortTransaction()` moves the session
to `Aborted` (§4.3). -/
def ClientSession.txnAbort (s : ClientSession) : ClientSession :=
  ⟨.aborted, s.ended⟩

/-- Modelled from the spec: `session.endSession()` releases the
session (§4.3, §6). -/
def ClientSession.sessionEnd (s : ClientSession) : ClientSession :=
  ⟨s.txn, true⟩

/-- `startTransaction` (lines 199-206): `client.startSession(...)` then
`session.startTransaction(...)`, returning the session. -/
def startTransaction : ClientSession :=
  startSession.txnStart

/-- `commitTransaction(session)` (lines 208-211): commit, then end the
session. -/
def commitTransaction (s : ClientSession) : ClientSession :=
  s.txnCommit.sessionEnd

/-- `abortTransaction(session)` (lines 213-216): abort, then end the
session. -/
def abortTransaction (s : ClientSession) : ClientSession :=
  s.txnAbort.sessionEnd

/-- Modelled from the spec: writes performed under a session are pending
against the committed base until commit; after `abortTransaction` they are
discarded, so the visible store is the base unchanged (§4.3, §8). -/
def visibleAfterAbort (base : List Doc) (_sessionWrites : List CollectionCall) :
    List Doc :=
  base

/-! ## Helper lemmas -/

/-- First-match lookup distributes over append. -/
theorem alookup_append {α : Type} (l1 l2 : List (String × α)) (k : String) :
    alookup (l1 ++ l2) k =
      match alookup l1 k with
      | some v => some v
      | none => alookup l2 k := by
  induction l1 with
  | nil => simp [alookup]
  | cons kv rest ih =>
      by_cases h : kv.1 = k <;> simp [alookup, h, ih]

/-- Looking up a key in a filtered association list, when the predicate
depends only on the key. -/
theorem alookup_filter_keyPred {α : Type} (l : List (String × α))
    (p : String → Bool) (k : String) :
    alookup (l.filter (fun kv => p kv.1)) k =
      if p k then alookup l k else none := by
  induction l with
  | nil => simp [alookup]
  | cons kv rest ih =>
      by_cases hp : p kv.1
      · by_cases hk : kv.1 = k
        · subst hk; simp [alookup, hp, ih]
        · simp [alookup, hp, hk, ih]
      · by_cases hk : kv.1 = k
        · subst hk; simp [alookup, hp, ih]
        · simp [alookup, hp, hk, ih]

/-- The key fact about JavaScript spread: lookup in `{...d, ...m}` prefers
`m` (metadata wins on key collision) and falls back to `d`. -/
theorem alookup_spread (d m : Doc) (k : String) :
    alookup (spread d m) k =
      match alookup m k with
      | some v => some v
      | none => alookup d k := by
  unfold spread
  rw [alookup_append]
  rw [alookup_filter_keyPred d (fun key => (alookup m key).isNone) k]
  cases h : alookup m k
  · simp [h]
    cases alookup d k <;> rfl
  · simp [h]

/-- Spreading the empty object changes nothing: `{...d} = d`. -/
theorem spread_nil (d : Doc) : spread d [] = d := by
  unfold spread
  have h : ∀ kv : String × Val, (alookup ([] : Doc) kv.1).isNone = true := by
    intro kv; simp [alookup]
  simp [List.filter_eq_self.mpr (fun kv _ => h kv)]

/-- `mergeEach` preserves positions: the element at position `i` is the
corresponding input document spread with invocation `start + i`'s
metadata. -/
theorem mergeEach_get? (M : Nat → Doc) (start : Nat) (docs : List Doc) (i : Nat) :
    (mergeEach M start docs).get? i =
      (docs.get? i).map (fun d => spread d (M (start + i))) := by
  induction docs generalizing start i with
  | nil => simp [mergeEach]
  | cons d rest ih =>
      cases i with
      | zero => simp [mergeEach]
      | succ j =>
          simp only [mergeEach, List.get?]
          rw [ih (start + 1) j]
          have : start + 1 + j = start + (j + 1) := by omega
          rw [this]

/-- `mongoUpdateMany` preserves the number of stored documents. -/
theorem mongoUpdateMany_length (store : List Doc) (f : Filter) (u : UpdateSpec) :
    (mongoUpdateMany store f u).length = store.length := by
  simp [mongoUpdateMany]

/-- `mongoUpdateMany` acts position-wise: matched documents receive the
`$set` clause, the others are unchanged. -/
theorem mongoUpdateMany_get? (store : List Doc) (f : Filter) (u : UpdateSpec)
    (i : Nat) :
    (mongoUpdateMany store f u).get? i =
      (store.get? i).map
        (fun d => if filterMatches f d then applySet d (u.set.getD []) else d) := by
  simp [mongoUpdateMany, List.get?_eq_getElem?, List.getElem?_map]

/-- `mongoUpdateOne` preserves the number of stored documents. -/
theorem mongoUpdateOne_length (store : List Doc) (f : Filter) (u : UpdateSpec) :
    (mongoUpdateOne store f u).length = store.length := by
  induction store with
  | nil => simp [mongoUpdateOne]
  | cons d rest ih =>
      by_cases h : filterMatches f d <;> simp [mongoUpdateOne, h, ih]

/-! ## Concrete data for counterexamples and witnesses -/

/-- The filter `{name: "Jack"}`. -/
def jackFilter : Filter := [("name", Val.str "Jack")]

/-- A document matching `jackFilter` whose soft-delete marker is set. -/
def jackDeleted : Doc := [("name", Val.str "Jack"), ("deletedAt", Val.date 5)]

/-- An unreachable cluster address. -/
def badUri : String := "mongodb://unreachable"

/-- An environment in which every connection handshake fails. -/
def envDown : String → Bool := fun _ => false

/-- The broken client the factory caches for `badUri` under `envDown`. -/
def badClient : MongoClient := ⟨badUri, false⟩

/-- A metadata producer whose output depends on the invocation index, as a
JavaScript closure's may (e.g. one reading a mutable counter or clock). -/
def seqProducer : Nat → Doc := fun i => [("stamp", Val.date i)]

/-- A two-document batch. -/
def twoDocs : List Doc := [[("name", Val.str "Bob")], [("name", Val.str "Carol")]]

/-- Options carrying `seqProducer` as `createMetaData`. -/
def seqOpts : DbOperationOptions := ⟨some seqProducer, none, none, none⟩

/-- The filter `{name: "Olive"}`. -/
def oliveFilter : Filter := [("name", Val.str "Olive")]

/-- A stored document whose `_id` is the ObjectId with hex string `"abc"`. -/
def aliceOidDoc : Doc := [("_id", Val.oid "abc"), ("name", Val.str "Alice")]

/-! ## Claims -/

/-- C1, counterexample: with `includeDeleted` absent (the empty options
bag), `findOne` passes the filter `{name: "Jack"}` to the collection with
no soft-delete augmentation, and the run against a store holding only a
document with `deletedAt` set returns that document — contradicting the
claim that such a document is never returned by a default read. -/
theorem c1_softDeleted_doc_returned_by_default_read :
    findOne jackFilter noOpts = CollectionCall.findOneC jackFilter none
    ∧ runFindOne [jackDeleted] jackFilter noOpts = some jackDeleted
    ∧ alookup jackDeleted "deletedAt" = some (Val.date 5) := by
  refine ⟨rfl, ?_, by decide⟩
  decide

/-- C1 (amended): `find`, `findOne` and `findById` pass their filter to
the underlying collection verbatim — the options bag has no
`includeDeleted` field and no soft-delete augmentation is applied — so any
stored document matching the filter is returned by a default read, whether
or not its soft-delete marker is set. -/
theorem c1_reads_pass_filter_verbatim (F : Filter) (opts : DbOperationOptions)
    (id : String) (d : Doc) (h : filterMatches F d = true) :
    findOne F opts = CollectionCall.findOneC F opts.session
    ∧ find F opts = CollectionCall.findC F opts.session
    ∧ findById id opts = CollectionCall.findOneC [("_id", Val.oid id)] opts.session
    ∧ runFindOne [d] F opts = some d := by
  refine ⟨rfl, rfl, rfl, ?_⟩
  simp [runFindOne, findOne, mongoFindOne, List.find?, h]

/-- C1, witness for the amended theorem at `{name: "Jack"}` and the
soft-deleted `jackDeleted` document. -/
theorem c1_reads_pass_filter_verbatim_witness :
    filterMatches jackFilter jackDeleted = true
    ∧ (findOne jackFilter noOpts = CollectionCall.findOneC jackFilter none
       ∧ find jackFilter noOpts = CollectionCall.findC jackFilter none
       ∧ findById "abc" noOpts = CollectionCall.findOneC [("_id", Val.oid "abc")] none
       ∧ runFindOne [jackDeleted] jackFilter noOpts = some jackDeleted) :=
  ⟨by decide,
   c1_reads_pass_filter_verbatim jackFilter noOpts "abc" jackDeleted (by decide)⟩

/-- C2: the factory stores the new client in the process-wide cache
*before* awaiting the handshake. When the handshake for `badUri` fails,
the rejection propagates (`connectionError`) but the cache retains the
never-connected client, and the next `create` call with the same address
hits the cache: it attempts no handshake and hands out a service bound to
the unconnected client — contradicting "the cache is left without an
entry for that address, so the next create call performs the handshake
again". -/
theorem c2_cache_retains_client_on_handshake_failure :
    factoryCreate envDown [] badUri =
      ⟨[(badUri, badClient)], CreateOutcome.connectionError, true⟩
    ∧ factoryCreate envDown [(badUri, badClient)] badUri =
      ⟨[(badUri, badClient)], CreateOutcome.ok badClient, false⟩
    ∧ badClient.connected = false := by
  refine ⟨by decide, by decide, rfl⟩

/-- C3: `insertOne(D, {createMetaData: M})` invokes `M` once, writes to
the store exactly `D` overlaid with `M()`'s fields — on any key collision
`M()`'s value wins on lookup — and returns the store's insert
acknowledgment; with no producer, `D` is written unchanged. -/
theorem c3_insertOne_merges_metadata (D : Doc) (M : Nat → Doc)
    (um : Option (Nat → Doc)) (s : Option SessionId) (dbg : Option Bool)
    (store : List Doc) (k : String) :
    insertOne D ⟨some M, um, s, dbg⟩ =
      CollectionCall.insertOneC (spread D (M 0)) s
    ∧ insertOneInvocations ⟨some M, um, s, dbg⟩ = 1
    ∧ alookup (spread D (M 0)) k =
        (match alookup (M 0) k with
         | some v => some v
         | none => alookup D k)
    ∧ runInsertOne store D ⟨some M, um, s, dbg⟩ =
        (store ++ [spread D (M 0)], ⟨true, store.length⟩)
    ∧ insertOne D ⟨none, um, s, dbg⟩ = CollectionCall.insertOneC D s
    ∧ runInsertOne store D ⟨none, um, s, dbg⟩ =
        (store ++ [D], ⟨true, store.length⟩) := by
  refine ⟨rfl, rfl, alookup_spread D (M 0) k, rfl, ?_, ?_⟩
  · simp [insertOne, insertOneFinalDoc, spread_nil]
  · simp [runInsertOne, mongoInsertOne, insertOneFinalDoc, spread_nil]

/-- C4: `replaceOne(F, {}, opts)` returns null with no store call and no
error (`none` in the model), whatever `F` and `opts` are and regardless of
whether any stored document matches `F` (no store enters the decision);
a non-empty replacement is delegated to the store verbatim. -/
theorem c4_replaceOne_empty_is_noop (F : Filter) (opts : DbOperationOptions)
    (r : Doc) (h : r ≠ []) :
    replaceOne F [] opts = none
    ∧ replaceOne F r opts =
        some (CollectionCall.replaceOneC F r opts.session) := by
  constructor
  · rfl
  · have hlen : ¬ r.length = 0 := fun hc => h (List.length_eq_zero.mp hc)
    simp [replaceOne, hlen]

/-- C4, witness at the filter `{name: "Olive"}` and the non-empty
replacement `{age: 31}`. -/
theorem c4_replaceOne_empty_is_noop_witness :
    ([("age", Val.num 31)] : Doc) ≠ []
    ∧ (replaceOne oliveFilter [] noOpts = none
       ∧ replaceOne oliveFilter [("age", Val.num 31)] noOpts =
           some (CollectionCall.replaceOneC oliveFilter
             [("age", Val.num 31)] none)) :=
  ⟨by decide,
   c4_replaceOne_empty_is_noop oliveFilter noOpts [("age", Val.num 31)] (by decide)⟩

/-- C5, counterexample: `insertMany` evaluates
`options.createMetaData?.()` inside the `map` callback, so on a
two-document batch the producer is invoked twice, not once per operation;
with a producer whose output varies between invocations the two stored
documents receive different stamps, which is impossible under
once-per-operation semantics. -/
theorem c5_producer_invoked_twice_on_two_docs :
    insertManyInvocations twoDocs seqOpts = 2
    ∧ insertManyInvocations twoDocs seqOpts ≠ 1
    ∧ insertManyFinalDocs twoDocs seqOpts =
        [[("name", Val.str "Bob"), ("stamp", Val.date 0)],
         [("name", Val.str "Carol"), ("stamp", Val.date 1)]] := by
  refine ⟨by decide, by decide, by decide⟩

/-- C5 (amended): `insertOne` and the update paths invoke their metadata
producer exactly once per operation, but `insertMany(docs, {createMetaData:
M})` invokes `M` once per element — `docs.length` times for the batch —
merging invocation `i`'s output into the `i`-th document independently
(metadata winning on key collision) before a single batched write. -/
theorem c5_producer_invoked_once_per_document (docs : List Doc) (M : Nat → Doc)
    (M2 : Nat → Doc) (cm um : Option (Nat → Doc)) (s : Option SessionId)
    (dbg : Option Bool) (i : Nat) :
    insertManyInvocations docs ⟨some M, um, s, dbg⟩ = docs.length
    ∧ insertMany docs ⟨some M, um, s, dbg⟩ =
        CollectionCall.insertManyC (mergeEach M 0 docs) s
    ∧ (insertManyFinalDocs docs ⟨some M, um, s, dbg⟩).get? i =
        (docs.get? i).map (fun d => spread d (M i))
    ∧ insertOneInvocations ⟨some M, um, s, dbg⟩ = 1
    ∧ updatePathInvocations ⟨cm, some M2, s, dbg⟩ = 1 := by
  refine ⟨rfl, rfl, ?_, rfl, rfl⟩
  have h := mergeEach_get? M 0 docs i
  simpa [insertManyFinalDocs] using h

/-- C6: `softDeleteOne(F, O)` at time `now` is exactly
`updateOne(F, {$set: {deletedAt: now}}, O)` and `softDeleteMany` exactly
the corresponding `updateMany`; neither call is a physical delete; under
the store's update semantics the document count is preserved, each matched
document receives the `$set` clause, and applying that clause sets the
soft-delete marker to `now`. -/
theorem c6_softDelete_updates_without_delete (now : Nat) (F : Filter)
    (opts : DbOperationOptions) (store : List Doc) (i : Nat) (d : Doc) :
    softDeleteOne now F opts = updateOne F (softDeleteUpdate now) opts
    ∧ softDeleteMany now F opts = updateMany F (softDeleteUpdate now) opts
    ∧ (softDeleteOne now F opts).isDelete = false
    ∧ (softDeleteMany now F opts).isDelete = false
    ∧ (mongoUpdateMany store F (softDeleteUpdate now)).length = store.length
    ∧ (mongoUpdateOne store F (softDeleteUpdate now)).length = store.length
    ∧ (mongoUpdateMany store F (softDeleteUpdate now)).get? i =
        (store.get? i).map (fun dd =>
          if filterMatches F dd
          then applySet dd [("deletedAt", Val.date now)] else dd)
    ∧ alookup (applySet d [("deletedAt", Val.date now)]) "deletedAt" =
        some (Val.date now) := by
  refine ⟨rfl, rfl, rfl, rfl, mongoUpdateMany_length store F (softDeleteUpdate now),
    mongoUpdateOne_length store F (softDeleteUpdate now), ?_, ?_⟩
  · simpa [softDeleteUpdate] using mongoUpdateMany_get? store F (softDeleteUpdate now) i
  · rw [applySet, alookup_spread]
    simp [alookup]

/-- C7: `patchOne` and `updateOne` issue the same underlying-store call
with the same arguments on all inputs; with a producer, both emit a
`collection.updateOne` call whose `$set` clause is the update's `$set`
overlaid with the producer's output, metadata winning on key collision
lookup-wise; with no producer both pass the update through unchanged. -/
theorem c7_patchOne_equals_updateOne (F : Filter) (U : UpdateSpec)
    (opts : DbOperationOptions) (M : Nat → Doc) (cm : Option (Nat → Doc))
    (s : Option SessionId) (dbg : Option Bool) (k : String) :
    patchOne F U opts = updateOne F U opts
    ∧ patchOne F U ⟨cm, some M, s, dbg⟩ =
        CollectionCall.updateOneC F
          ⟨some (spread (U.set.getD []) (M 0)), U.rest⟩ s
    ∧ alookup (spread (U.set.getD []) (M 0)) k =
        (match alookup (M 0) k with
         | some v => some v
         | none => alookup (U.set.getD []) k)
    ∧ patchOne F U ⟨cm, none, s, dbg⟩ = CollectionCall.updateOneC F U s :=
  ⟨rfl, rfl, alookup_spread (U.set.getD []) (M 0) k, rfl⟩

/-- C8, counterexample: the service's public surface does not include
`bulkWrite`, `aggregate`, `countDocuments` or `distinct`, so the claim
that the repository exposes all five pass-through operations is false. -/
theorem c8_four_operations_not_exposed :
    ("bulkWrite" ∈ exposedOperations ∧ "aggregate" ∈ exposedOperations
      ∧ "countDocuments" ∈ exposedOperations
      ∧ "distinct" ∈ exposedOperations
      ∧ "createIndex" ∈ exposedOperations) = False :=
  eq_false (by decide)

/-- C8 (amended): of the five operations named, only `createIndex` is
exposed, and it is a pure pass-through — the call carries the index
specification and options verbatim, with no metadata injection and no
soft-delete transformation; `bulkWrite`, `aggregate`, `countDocuments`
and `distinct` are not part of the repository's surface. -/
theorem c8_createIndex_is_passthrough (indexSpec : Doc) (o : Option Doc) :
    "createIndex" ∈ exposedOperations
    ∧ "bulkWrite" ∉ exposedOperations
    ∧ "aggregate" ∉ exposedOperations
    ∧ "countDocuments" ∉ exposedOperations
    ∧ "distinct" ∉ exposedOperations
    ∧ createIndex indexSpec o = CollectionCall.createIndexC indexSpec o :=
  ⟨by decide, by decide, by decide, by decide, by decide, rfl⟩

/-- C9: `startTransaction` creates a session in the `Active` state;
`commitTransaction` leaves the session committed and released;
`abortTransaction` leaves it aborted and released, and the store visible
after an abort is the pre-transaction base — all session-scoped writes are
discarded; and every CRUD operation attaches exactly the caller-supplied
`opts.session` to its delegated call, never starting a session of its
own. -/
theorem c9_transaction_lifecycle (s : ClientSession) (base : List Doc)
    (ws : List CollectionCall) (doc : Doc) (docs : List Doc) (F : Filter)
    (u : UpdateSpec) (r : Doc) (idStr : String) (now : Nat)
    (opts : DbOperationOptions) :
    startTransaction = ⟨TxnState.active, false⟩
    ∧ commitTransaction s = ⟨TxnState.committed, true⟩
    ∧ abortTransaction s = ⟨TxnState.aborted, true⟩
    ∧ visibleAfterAbort base ws = base
    ∧ (insertOne doc opts).sessionOf = opts.session
    ∧ (insertMany docs opts).sessionOf = opts.session
    ∧ (find F opts).sessionOf = opts.session
    ∧ (findOne F opts).sessionOf = opts.session
    ∧ (findById idStr opts).sessionOf = opts.session
    ∧ (patchOne F u opts).sessionOf = opts.session
    ∧ (patchById idStr u opts).sessionOf = opts.session
    ∧ (updateOne F u opts).sessionOf = opts.session
    ∧ (updateMany F u opts).sessionOf = opts.session
    ∧ ((replaceOne F r opts).map CollectionCall.sessionOf).getD opts.session =
        opts.session
    ∧ (deleteOne F opts).sessionOf = opts.session
    ∧ (deleteMany F opts).sessionOf = opts.session
    ∧ (softDeleteOne now F opts).sessionOf = opts.session
    ∧ (softDeleteMany now F opts).sessionOf = opts.session := by
  refine ⟨rfl, rfl, rfl, rfl, rfl, rfl, rfl, rfl, rfl, rfl, rfl, rfl, rfl, ?_,
    rfl, rfl, rfl, rfl⟩
  by_cases h : r.length = 0 <;> simp [replaceOne, h, CollectionCall.sessionOf]

/-- C10: `patchById(s, U, O)` delegates to `patchOne` with the raw-string
filter `{_id: s}` while `findById(s)` delegates to `findOne` with
`{_id: new ObjectId(s)}`; the two filters are unequal, and a stored
document whose `_id` is the ObjectId of `s` matches `findById`'s filter
but not `patchById`'s. -/
theorem c10_patchById_uses_raw_string_id (s : String) (U : UpdateSpec)
    (opts opts2 : DbOperationOptions) (d : Doc)
    (h : alookup d "_id" = some (Val.oid s)) :
    patchById s U opts = patchOne [("_id", Val.str s)] U opts
    ∧ findById s opts2 = findOne [("_id", Val.oid s)] opts2
    ∧ ([("_id", Val.str s)] : Filter) ≠ [("_id", Val.oid s)]
    ∧ filterMatches [("_id", Val.oid s)] d = true
    ∧ filterMatches [("_id", Val.str s)] d = false := by
  refine ⟨rfl, rfl, ?_, ?_, ?_⟩
  · intro hc
    simp at hc
  · simp [filterMatches, h]
  · simp [filterMatches, h]

/-- C10, witness at the id `"abc"` and a stored document whose `_id` is
the ObjectId with hex string `"abc"`. -/
theorem c10_patchById_uses_raw_string_id_witness :
    alookup aliceOidDoc "_id" = some (Val.oid "abc")
    ∧ (patchById "abc" ⟨none, []⟩ noOpts =
         patchOne [("_id", Val.str "abc")] ⟨none, []⟩ noOpts
       ∧ findById "abc" noOpts = findOne [("_id", Val.oid "abc")] noOpts
       ∧ ([("_id", Val.str "abc")] : Filter) ≠ [("_id", Val.oid "abc")]
       ∧ filterMatches [("_id", Val.oid "abc")] aliceOidDoc = true
       ∧ filterMatches [("_id", Val.str "abc")] aliceOidDoc = false) :=
  ⟨by decide,
   c10_patchById_uses_raw_string_id "abc" ⟨none, []⟩ noOpts noOpts aliceOidDoc
     (by decide)⟩

end Mdb
